import Mathlib

/-!
Shallow embedding of the rusty-ts library (src/private/OptionImpl.ts,
src/private/ResultImpl.ts, src/private/UnwrapError.ts, src/index.ts).

The TS classes are tagged unions: a boolean discriminant (`isNone_` /
`isErr_`) plus a payload slot (`value : T | undefined` resp. `value : T | E`),
with construction restricted to the factory functions `some`/`none` and
`ok`/`err` by a private constructor.  We embed each class as a structure
carrying the discriminant, the slot, and the construction invariant that the
private constructor enforces (tag and payload are set together and never
mutated).  The unchecked TS casts (`this.value as T`) are embedded as slot
reads whose soundness comes from that invariant.

Thrown JS errors are embedded with `Except`: a method that can throw returns
`Except JSError _`, and `throw error` becomes `Except.error error`.
-/

/-- Embedding of a JS `Error` object as observed by the library and its
tests: its `name` and `message` fields. -/
structure JSError where
  name : String
  message : String
deriving DecidableEq, Repr

/-- Embedding of src/private/UnwrapError.ts: `new UnwrapError(message)`
constructs an `Error` whose `name` is set to `"UnwrapError"` and whose
`message` is the given string. -/
def UnwrapError (message : String) : JSError :=
  ⟨"UnwrapError", message⟩

/-- A small universe of JS runtime values, used to instantiate the generic
payload type `T` at the missing markers of the host language, `undefined` and
`null` (relevant to `option.some(undefined)` vs `option.none()`). -/
inductive TSVal where
  | undef : TSVal
  | null : TSVal
  | bool : Bool → TSVal
  | num : Int → TSVal
  | str : String → TSVal
deriving DecidableEq, Repr

/-- Embedding of the TS union `T | undefined | null`, the argument type of
`option.fromVoidable`. -/
inductive Voidable (T : Type) where
  | undef : Voidable T
  | null : Voidable T
  | val : T → Voidable T
deriving DecidableEq, Repr

/-- Embedding of `class OptionImpl<T>`: the private fields
`isNone_ : boolean` and `value : T | undefined` (the slot is `Option T`,
with `Option.none` standing for the `undefined` put there by `none()`),
together with the invariant enforced by the private constructor: only
`some`/`none` construct instances, so the slot holds a value exactly when
the tag says the instance is not `none`. -/
structure OptionImpl (T : Type) where
  isNone_ : Bool
  value : Option T
  inv : value.isSome = !isNone_

/-- Embedding of `class ResultImpl<T, E>`: the private fields
`isErr_ : boolean` and `value : T | E` (the untagged TS union is `T ⊕ E`),
with the private-constructor invariant: `ok` stores a `T` (left), `err`
stores an `E` (right), matching the tag. -/
structure ResultImpl (T E : Type) where
  isErr_ : Bool
  value : T ⊕ E
  inv : value.isLeft = !isErr_

/-- TS `OptionImpl.some(value)`: `new OptionImpl(false, value)`. -/
def OptionImpl.some {T : Type} (value : T) : OptionImpl T :=
  ⟨false, Option.some value, rfl⟩

/-- TS `OptionImpl.none()`: `new OptionImpl(true, undefined)`. -/
def OptionImpl.none {T : Type} : OptionImpl T :=
  ⟨true, Option.none, rfl⟩

/-- TS `isNone()`: `return this.isNone_;`. -/
def OptionImpl.isNone {T : Type} (o : OptionImpl T) : Bool :=
  o.isNone_

/-- TS `isSome()`: `return !this.isNone();`. -/
def OptionImpl.isSome {T : Type} (o : OptionImpl T) : Bool :=
  !o.isNone

/-- TS `ResultImpl.ok(value)`: `new ResultImpl(false, value)`. -/
def ResultImpl.ok {T E : Type} (value : T) : ResultImpl T E :=
  ⟨false, Sum.inl value, rfl⟩

/-- TS `ResultImpl.err(error)`: `new ResultImpl(true, error)`. -/
def ResultImpl.err {T E : Type} (error : E) : ResultImpl T E :=
  ⟨true, Sum.inr error, rfl⟩

/-- TS `isOk()`: `return !this.isErr_;`. -/
def ResultImpl.isOk {T E : Type} (r : ResultImpl T E) : Bool :=
  !r.isErr_

/-- TS `isErr()`: `return this.isErr_;`. -/
def ResultImpl.isErr {T E : Type} (r : ResultImpl T E) : Bool :=
  r.isErr_

/-- The unchecked cast `s as α` on the left component of a TS union slot,
sound by the construction invariant. -/
def sumLeft {α β : Type} : (s : α ⊕ β) → s.isLeft = true → α
  | Sum.inl a, _ => a
  | Sum.inr _, h => Bool.noConfusion h

/-- The unchecked cast `s as β` on the right component of a TS union slot,
sound by the construction invariant. -/
def sumRight {α β : Type} : (s : α ⊕ β) → s.isRight = true → β
  | Sum.inr b, _ => b
  | Sum.inl _, h => Bool.noConfusion h

/-- TS `OptionImpl.prototype.match(matcher)` (the TS method is called `match`,
a Lean keyword): `if (this.isNone()) return matcher.none(); else return
matcher.some(this.value as T);`.  The two matcher branches are passed as
the two function arguments, in the order of the TS matcher object literal
`{ none, some }`; the cast `this.value as T` is the slot read, sound by the
invariant. -/
def OptionImpl.matchWith {T R : Type} (o : OptionImpl T)
    (noneBranch : Unit → R) (someBranch : T → R) : R :=
  if h : o.isNone = true then
    noneBranch ()
  else
    someBranch (o.value.get (by
      have hinv := o.inv
      simp only [OptionImpl.isNone, Bool.not_eq_true] at h
      rw [h] at hinv
      simpa using hinv))

/-- TS `ResultImpl.prototype.match(matcher)`: `if (this.isErr_) return
matcher.err(this.value as E); else return matcher.ok(this.value as T);`.
Branches in the order of the TS matcher object literal `{ ok, err }`. -/
def ResultImpl.matchWith {T E R : Type} (r : ResultImpl T E)
    (okBranch : T → R) (errBranch : E → R) : R :=
  if h : r.isErr_ = true then
    errBranch (sumRight r.value (by
      have hinv := r.inv
      rw [h] at hinv
      simp only [Bool.not_true] at hinv
      rcases hv : r.value with t | e
      · rw [hv] at hinv; simp at hinv
      · rfl))
  else
    okBranch (sumLeft r.value (by
      have hinv := r.inv
      simp only [Bool.not_eq_true] at h
      rw [h] at hinv
      simpa using hinv))

@[simp] theorem OptionImpl.matchWith_some {T R : Type} (v : T)
    (nf : Unit → R) (sf : T → R) :
    (OptionImpl.some v).matchWith nf sf = sf v := rfl

@[simp] theorem OptionImpl.matchWith_none {T R : Type}
    (nf : Unit → R) (sf : T → R) :
    (OptionImpl.none : OptionImpl T).matchWith nf sf = nf () := rfl

@[simp] theorem ResultImpl.matchWith_ok {T E R : Type} (t : T)
    (okF : T → R) (errF : E → R) :
    (ResultImpl.ok t : ResultImpl T E).matchWith okF errF = okF t := rfl

@[simp] theorem ResultImpl.matchWith_err {T E R : Type} (e : E)
    (okF : T → R) (errF : E → R) :
    (ResultImpl.err e : ResultImpl T E).matchWith okF errF = errF e := rfl

/-- Every `OptionImpl` value is (propositionally) one of the two
factory-built forms: the private constructor allows no other states. -/
theorem OptionImpl.optVariantCases {T : Type} (o : OptionImpl T) :
    o = OptionImpl.none ∨ ∃ v, o = OptionImpl.some v := by
  obtain ⟨tag, slot, hinv⟩ := o
  cases tag
  · cases slot with
    | none => simp at hinv
    | some v => exact Or.inr ⟨v, rfl⟩
  · cases slot with
    | none => exact Or.inl rfl
    | some v => simp at hinv

/-- Every `ResultImpl` value is (propositionally) one of the two
factory-built forms. -/
theorem ResultImpl.resVariantCases {T E : Type} (r : ResultImpl T E) :
    (∃ t, r = ResultImpl.ok t) ∨ ∃ e, r = ResultImpl.err e := by
  obtain ⟨tag, slot, hinv⟩ := r
  cases tag
  · cases slot with
    | inl t => exact Or.inl ⟨t, rfl⟩
    | inr e => simp at hinv
  · cases slot with
    | inl t => simp at hinv
    | inr e => exact Or.inr ⟨e, rfl⟩

@[simp] theorem OptionImpl.isNone_some {T : Type} (v : T) :
    (OptionImpl.some v).isNone = false := rfl

@[simp] theorem OptionImpl.isNone_none {T : Type} :
    (OptionImpl.none : OptionImpl T).isNone = true := rfl

@[simp] theorem OptionImpl.isSome_some {T : Type} (v : T) :
    (OptionImpl.some v).isSome = true := rfl

@[simp] theorem OptionImpl.isSome_none {T : Type} :
    (OptionImpl.none : OptionImpl T).isSome = false := rfl

@[simp] theorem ResultImpl.isOk_ok {T E : Type} (t : T) :
    (ResultImpl.ok t : ResultImpl T E).isOk = true := rfl

@[simp] theorem ResultImpl.isOk_err {T E : Type} (e : E) :
    (ResultImpl.err e : ResultImpl T E).isOk = false := rfl

@[simp] theorem ResultImpl.isErr_ok {T E : Type} (t : T) :
    (ResultImpl.ok t : ResultImpl T E).isErr = false := rfl

@[simp] theorem ResultImpl.isErr_err {T E : Type} (e : E) :
    (ResultImpl.err e : ResultImpl T E).isErr = true := rfl

theorem OptionImpl.some_ne_none {T : Type} (v : T) :
    OptionImpl.some v ≠ (OptionImpl.none : OptionImpl T) := by
  intro h
  have := congrArg OptionImpl.isNone_ h
  simp [OptionImpl.some, OptionImpl.none] at this

theorem OptionImpl.some_inj {T : Type} {v w : T}
    (h : OptionImpl.some v = OptionImpl.some w) : v = w := by
  have := congrArg OptionImpl.value h
  simpa [OptionImpl.some] using this

/-- TS `OptionImpl.prototype.expect(message: string | Error)`: on `none` it
builds `new UnwrapError(message)` when the argument is a string, otherwise
uses the supplied `Error` object itself, and throws it; on `some` it
returns the wrapped value.  `throw` is embedded as `Except.error`. -/
def OptionImpl.expect {T : Type} (o : OptionImpl T)
    (message : String ⊕ JSError) : Except JSError T :=
  o.matchWith
    (fun _ =>
      Except.error (match message with
        | Sum.inl s => UnwrapError s
        | Sum.inr e => e))
    (fun value => Except.ok value)

/-- TS `OptionImpl.prototype.unwrap()`: `return this.expect("Tried to call
unwrap() on option.none()");`. -/
def OptionImpl.unwrap {T : Type} (o : OptionImpl T) : Except JSError T :=
  o.expect (Sum.inl "Tried to call unwrap() on option.none()")

/-- TS `OptionImpl.prototype.unwrapOrElse(defaultValueThunk)`: on `none` it
returns `defaultValueThunk()`, on `some` the wrapped value.  The TS return
type `T | D` is the sum `T ⊕ D`. -/
def OptionImpl.unwrapOrElse {T D : Type} (o : OptionImpl T)
    (defaultValueThunk : Unit → D) : T ⊕ D :=
  o.matchWith
    (fun _ => Sum.inr (defaultValueThunk ()))
    (fun value => Sum.inl value)

/-- TS `ResultImpl.prototype.expect(message: string | Error)`: on `ok` returns
the value; on `err` throws `new UnwrapError(message)` for a string argument,
or the supplied `Error` object itself. -/
def ResultImpl.expect {T E : Type} (r : ResultImpl T E)
    (message : String ⊕ JSError) : Except JSError T :=
  r.matchWith
    (fun value => Except.ok value)
    (fun _ =>
      Except.error (match message with
        | Sum.inl s => UnwrapError s
        | Sum.inr e => e))

/-- TS `ResultImpl.prototype.expectErr(message: string | Error)`: on `ok`
throws `new UnwrapError(message)` for a string argument, or the supplied
`Error` object itself; on `err` returns the error value. -/
def ResultImpl.expectErr {T E : Type} (r : ResultImpl T E)
    (message : String ⊕ JSError) : Except JSError E :=
  r.matchWith
    (fun _ =>
      Except.error (match message with
        | Sum.inl s => UnwrapError s
        | Sum.inr e => e))
    (fun value => Except.ok value)

/-- TS `ResultImpl.prototype.unwrap()`: `return this.expect("Tried to call
unwrap() on result.err()");`. -/
def ResultImpl.unwrap {T E : Type} (r : ResultImpl T E) : Except JSError T :=
  r.expect (Sum.inl "Tried to call unwrap() on result.err()")

/-- TS `ResultImpl.prototype.unwrapErr()`: `return this.expectErr("Tried to
call unwrapErr() on result.ok()");`. -/
def ResultImpl.unwrapErr {T E : Type} (r : ResultImpl T E) :
    Except JSError E :=
  r.expectErr (Sum.inl "Tried to call unwrapErr() on result.ok()")

/-- TS `ResultImpl.prototype.unwrapOrElse(defaultValueThunk)`: on `ok` returns
the value; on `err` returns `defaultValueThunk(this.value as E)` — the
thunk applied to the error payload (the source reads the slot directly;
in the `err` branch the slot is exactly the matcher argument, by the
construction invariant). -/
def ResultImpl.unwrapOrElse {T E D : Type} (r : ResultImpl T E)
    (defaultValueThunk : E → D) : T ⊕ D :=
  r.matchWith
    (fun value => Sum.inl value)
    (fun e => Sum.inr (defaultValueThunk e))

/-- TS `ResultImpl.prototype.safeUnwrap(this: Result<any, never>)`: `return
(this as any).value;` — a raw read of the payload slot with no tag check,
callable only when the error type is the uninhabited `never` (here
`Empty`), which forces the slot to hold a `T`. -/
def ResultImpl.safeUnwrap {T : Type} (r : ResultImpl T Empty) : T :=
  match r.value with
  | Sum.inl t => t
  | Sum.inr e => e.elim

/-- Modelled from the spec: `safeUnwrapErr(this: Result<never, any>): E` is
declared in the `Result` interface ("Same as `unwrapErr()` except this
method will never throw, since `this` cannot be `ok` (because the ok type
is `never`)") but its implementation is not among the provided source
files.  Following the spec sentence "statically-asserted-safe accessors … never
actually fail at runtime given that precondition" and the `safeUnwrap`
implementation it mirrors, it is the dual raw slot read, total because the
ok type is uninhabited. -/
def ResultImpl.safeUnwrapErr {E : Type} (r : ResultImpl Empty E) : E :=
  match r.value with
  | Sum.inl t => t.elim
  | Sum.inr e => e

/-- TS `ResultImpl.prototype.reverse()`: `ok(t) → err(t)`, `err(e) → ok(e)`. -/
def ResultImpl.reverse {T E : Type} (r : ResultImpl T E) : ResultImpl E T :=
  r.matchWith
    (fun t => ResultImpl.err t)
    (fun e => ResultImpl.ok e)

/-- TS `OptionImpl.prototype.transpose(this: Option<Result<U, E>>)`:
`none → ok(none)`; `some(ok(t)) → ok(some(t))`; `some(err(e)) → err(e)`. -/
def OptionImpl.transpose {U E : Type} (o : OptionImpl (ResultImpl U E)) :
    ResultImpl (OptionImpl U) E :=
  o.matchWith
    (fun _ => ResultImpl.ok OptionImpl.none)
    (fun res =>
      res.matchWith
        (fun t => ResultImpl.ok (OptionImpl.some t))
        (fun e => ResultImpl.err e))

/-- TS `ResultImpl.prototype.transpose(this: Result<Option<U>, E>)`:
`ok(some(t)) → some(ok(t))`; `ok(none) → none`; `err(e) → some(err(e))`. -/
def ResultImpl.transpose {U E : Type} (r : ResultImpl (OptionImpl U) E) :
    OptionImpl (ResultImpl U E) :=
  r.matchWith
    (fun opt =>
      opt.matchWith
        (fun _ => OptionImpl.none)
        (fun t => OptionImpl.some (ResultImpl.ok t)))
    (fun e => OptionImpl.some (ResultImpl.err e))

/-- TS `option.fromVoidable(voidable: T | undefined | null)`: `if (voidable
=== undefined || voidable === null) return OptionImpl.none(); else return
OptionImpl.some(voidable);`. -/
def fromVoidable {T : Type} : Voidable T → OptionImpl T
  | Voidable.undef => OptionImpl.none
  | Voidable.null => OptionImpl.none
  | Voidable.val v => OptionImpl.some v

/-- The loop body of `optionDotAll`: `values` is the accumulator array; for
each option, if it `isSome()` push `(option as any).value` (the raw slot
read, which after the tag check is the wrapped value), else return
`OptionImpl.none()` immediately. -/
def optionDotAllGo {T : Type} :
    List (OptionImpl T) → List T → OptionImpl (List T)
  | [], values => OptionImpl.some values
  | o :: rest, values =>
    if h : o.isSome = true then
      optionDotAllGo rest (values ++ [o.value.get (by
        have hinv := o.inv
        simp only [OptionImpl.isSome, OptionImpl.isNone, Bool.not_eq_eq_eq_not,
          Bool.not_true] at h
        rw [h] at hinv
        simpa using hinv)])
    else
      OptionImpl.none

/-- TS `optionDotAll(options)` (exported as `option.all`): scans the array
left to right, collecting unwrapped values; returns `some` of the
collected array when every element is `some`, else `none` at the first
`none`. -/
def optionDotAll {T : Type} (options : List (OptionImpl T)) :
    OptionImpl (List T) :=
  optionDotAllGo options []

/-- The loop body of `resultDotAll`: for each result, if it `isOk()` push
`result.safeUnwrap()` (at runtime, the raw slot read, which after the tag
check is the ok payload), else `return result` — the first `err` element
itself, recast from `Result<T, E>` to `Result<never, E>`; the recast has no
runtime content, so it is embedded as an `err` with the same payload. -/
def resultDotAllGo {T E : Type} :
    List (ResultImpl T E) → List T → ResultImpl (List T) E
  | [], values => ResultImpl.ok values
  | r :: rest, values =>
    if h : r.isOk = true then
      resultDotAllGo rest (values ++ [sumLeft r.value (by
        have hinv := r.inv
        simp only [ResultImpl.isOk, Bool.not_eq_eq_eq_not, Bool.not_true] at h
        rw [h] at hinv
        simpa using hinv)])
    else
      ResultImpl.err (sumRight r.value (by
        have hinv := r.inv
        have hb : r.isErr_ = true := by
          simpa [ResultImpl.isOk] using h
        rw [hb] at hinv
        simp only [Bool.not_true] at hinv
        rcases hv : r.value with t | e
        · rw [hv] at hinv; simp at hinv
        · rfl))

/-- TS `resultDotAll(results)` (exported as `result.all`): scans the array
left to right, collecting ok payloads; returns `ok` of the collected array
when every element is `ok`, else the first `err` element unchanged. -/
def resultDotAll {T E : Type} (results : List (ResultImpl T E)) :
    ResultImpl (List T) E :=
  resultDotAllGo results []

@[simp] theorem optionDotAllGo_nil {T : Type} (values : List T) :
    optionDotAllGo [] values = OptionImpl.some values := rfl

@[simp] theorem optionDotAllGo_cons_some {T : Type} (v : T)
    (rest : List (OptionImpl T)) (values : List T) :
    optionDotAllGo (OptionImpl.some v :: rest) values
      = optionDotAllGo rest (values ++ [v]) := rfl

@[simp] theorem optionDotAllGo_cons_none {T : Type}
    (rest : List (OptionImpl T)) (values : List T) :
    optionDotAllGo (OptionImpl.none :: rest) values = OptionImpl.none := rfl

@[simp] theorem resultDotAllGo_nil {T E : Type} (values : List T) :
    resultDotAllGo ([] : List (ResultImpl T E)) values
      = ResultImpl.ok values := rfl

@[simp] theorem resultDotAllGo_cons_ok {T E : Type} (t : T)
    (rest : List (ResultImpl T E)) (values : List T) :
    resultDotAllGo (ResultImpl.ok t :: rest) values
      = resultDotAllGo rest (values ++ [t]) := rfl

@[simp] theorem resultDotAllGo_cons_err {T E : Type} (e : E)
    (rest : List (ResultImpl T E)) (values : List T) :
    resultDotAllGo (ResultImpl.err e :: rest) values
      = ResultImpl.err e := rfl

theorem optionDotAllGo_map_append {T : Type} (vs : List T)
    (rest : List (OptionImpl T)) (values : List T) :
    optionDotAllGo (vs.map OptionImpl.some ++ rest) values
      = optionDotAllGo rest (values ++ vs) := by
  induction vs generalizing values with
  | nil => simp
  | cons v vs ih => simp [ih]

theorem resultDotAllGo_map_append {T E : Type} (vs : List T)
    (rest : List (ResultImpl T E)) (values : List T) :
    resultDotAllGo
        ((vs.map fun v => (ResultImpl.ok v : ResultImpl T E)) ++ rest) values
      = resultDotAllGo rest (values ++ vs) := by
  induction vs generalizing values with
  | nil => simp
  | cons v vs ih => simp [ih]

theorem optionDotAllGo_isSome {T : Type} (l : List (OptionImpl T))
    (values : List T) :
    (optionDotAllGo l values).isSome = l.all fun o => o.isSome := by
  induction l generalizing values with
  | nil => simp
  | cons o rest ih =>
    rcases OptionImpl.optVariantCases o with h | ⟨v, h⟩ <;> subst h <;> simp [ih]

theorem resultDotAllGo_isOk {T E : Type} (l : List (ResultImpl T E))
    (values : List T) :
    (resultDotAllGo l values).isOk = l.all fun r => r.isOk := by
  induction l generalizing values with
  | nil => simp
  | cons r rest ih =>
    rcases ResultImpl.resVariantCases r with ⟨t, h⟩ | ⟨e, h⟩ <;> subst h <;>
      simp [ih]

/-- C1: the two transpose operations are mutual inverses: for every
`Option` wrapping a `Result` (`none`, `some(ok t)`, `some(err e)`),
`Option.transpose` followed by `Result.transpose` reproduces the original
value, and for every `Result` wrapping an `Option` (`ok(none)`,
`ok(some t)`, `err e`), `Result.transpose` followed by `Option.transpose`
reproduces the original value. -/
theorem transpose_mutual_inverses :
    (∀ (U E : Type) (o : OptionImpl (ResultImpl U E)),
      o.transpose.transpose = o) ∧
    (∀ (U E : Type) (r : ResultImpl (OptionImpl U) E),
      r.transpose.transpose = r) := by
  constructor
  · intro U E o
    rcases OptionImpl.optVariantCases o with h | ⟨res, h⟩
    · subst h; simp [OptionImpl.transpose, ResultImpl.transpose]
    · subst h
      rcases ResultImpl.resVariantCases res with ⟨t, h⟩ | ⟨e, h⟩ <;> subst h <;>
        simp [OptionImpl.transpose, ResultImpl.transpose]
  · intro U E r
    rcases ResultImpl.resVariantCases r with ⟨opt, h⟩ | ⟨e, h⟩
    · subst h
      rcases OptionImpl.optVariantCases opt with h | ⟨t, h⟩ <;> subst h <;>
        simp [OptionImpl.transpose, ResultImpl.transpose]
    · subst h; simp [OptionImpl.transpose, ResultImpl.transpose]

/-- C2 counterexample: `unwrap()` on the `none` variant raises an
`UnwrapError` whose message is `"Tried to call unwrap() on option.none()"`,
which is not the message `"Tried to call unwrap() on absent"` asserted by
the claim (witnessed at the concrete instance `none : OptionImpl Nat`). -/
theorem unwrap_absent_message_refuted :
    (OptionImpl.none : OptionImpl Nat).unwrap
        = Except.error (UnwrapError "Tried to call unwrap() on option.none()")
    ∧ "Tried to call unwrap() on option.none()"
        ≠ "Tried to call unwrap() on absent" :=
  ⟨rfl, by decide⟩

/-- C2 (amended): calling `unwrap()` on the `none` variant raises the
distinguished `UnwrapError` error kind carrying exactly the message
`"Tried to call unwrap() on option.none()"`; calling `unwrap()` on a
`some` variant returns the wrapped value and raises nothing. -/
theorem unwrap_on_none_and_some :
    (∀ (T : Type),
      (OptionImpl.none : OptionImpl T).unwrap
        = Except.error (UnwrapError "Tried to call unwrap() on option.none()"))
    ∧ (UnwrapError "Tried to call unwrap() on option.none()").name
        = "UnwrapError"
    ∧ (UnwrapError "Tried to call unwrap() on option.none()").message
        = "Tried to call unwrap() on option.none()"
    ∧ (∀ (T : Type) (v : T), (OptionImpl.some v).unwrap = Except.ok v) :=
  ⟨fun _ => rfl, rfl, rfl, fun _ _ => rfl⟩

/-- C3: the statically-asserted-safe accessors never fail at runtime given
their type-level precondition: when the error type is uninhabited (`Empty`,
TS `never`), every result is the `ok` variant and `safeUnwrap` returns its
inner value (its total type `T`, not `Except`, is the "raises nothing");
dually, when the ok type is uninhabited, every result is the `err` variant
and `safeUnwrapErr` returns its inner error. -/
theorem safe_accessors_never_fail :
    (∀ (T : Type) (r : ResultImpl T Empty),
      r.isOk = true ∧ r = ResultImpl.ok r.safeUnwrap) ∧
    (∀ (E : Type) (r : ResultImpl Empty E),
      r.isErr = true ∧ r = ResultImpl.err r.safeUnwrapErr) := by
  constructor
  · intro T r
    rcases ResultImpl.resVariantCases r with ⟨t, h⟩ | ⟨e, h⟩
    · subst h; exact ⟨rfl, rfl⟩
    · exact e.elim
  · intro E r
    rcases ResultImpl.resVariantCases r with ⟨t, h⟩ | ⟨e, h⟩
    · exact t.elim
    · subst h; exact ⟨rfl, rfl⟩

/-- C4: `result.all` (`resultDotAll`) returns `ok` of the array of
unwrapped ok values, in order, when every element is `ok`; otherwise it
returns the first `err` element of the left-to-right scan unchanged (same
tag and payload), for every continuation of the array after that first
`err` — the tail is never inspected, so the scan short-circuits.  The last
conjunct states the variant of the output is `ok` exactly when every
element is `ok`. -/
theorem resultDotAll_first_err_or_all_ok :
    (∀ (T E : Type) (vs : List T),
      resultDotAll (vs.map fun v => (ResultImpl.ok v : ResultImpl T E))
        = ResultImpl.ok vs) ∧
    (∀ (T E : Type) (vs : List T) (e : E) (tail : List (ResultImpl T E)),
      resultDotAll
          ((vs.map fun v => (ResultImpl.ok v : ResultImpl T E))
            ++ ResultImpl.err e :: tail)
        = ResultImpl.err e) ∧
    (∀ (T E : Type) (l : List (ResultImpl T E)),
      (resultDotAll l).isOk = l.all fun r => r.isOk) := by
  refine ⟨fun T E vs => ?_, fun T E vs e tail => ?_, fun T E l => ?_⟩
  · have h := resultDotAllGo_map_append vs ([] : List (ResultImpl T E)) []
    simpa [resultDotAll] using h
  · have h := resultDotAllGo_map_append vs (ResultImpl.err e :: tail) []
    simpa [resultDotAll] using h
  · exact resultDotAllGo_isOk l []

/-- C5: `option.all` (`optionDotAll`) returns `some` of the array of
unwrapped values, in order, when every element is `some`; it returns
`none` at the first `none` element of the left-to-right scan, for every
continuation of the array after it — the tail is never inspected, so the
scan short-circuits.  The last conjunct states the output is `some`
exactly when every element is `some`. -/
theorem optionDotAll_first_none_or_all_some :
    (∀ (T : Type) (vs : List T),
      optionDotAll (vs.map OptionImpl.some) = OptionImpl.some vs) ∧
    (∀ (T : Type) (vs : List T) (tail : List (OptionImpl T)),
      optionDotAll (vs.map OptionImpl.some ++ OptionImpl.none :: tail)
        = OptionImpl.none) ∧
    (∀ (T : Type) (l : List (OptionImpl T)),
      (optionDotAll l).isSome = l.all fun o => o.isSome) := by
  refine ⟨fun T vs => ?_, fun T vs tail => ?_, fun T l => ?_⟩
  · have h := optionDotAllGo_map_append vs ([] : List (OptionImpl T)) []
    simpa [optionDotAll] using h
  · have h := optionDotAllGo_map_append vs (OptionImpl.none :: tail) []
    simpa [optionDotAll] using h
  · exact optionDotAllGo_isSome l []

/-- C6: when `expect` is called with a pre-built error object on the
non-matching variant (`expect` on `none`/`err`, `expectErr` on `ok`), the
exact object supplied by the caller is the raised value, unchanged and not
wrapped (in this pure embedding the thrown value is the argument itself);
when called with a string, a new `UnwrapError` carrying that string as its
message is raised. -/
theorem expect_raises_supplied_error :
    (∀ (T : Type) (e : JSError),
      (OptionImpl.none : OptionImpl T).expect (Sum.inr e)
        = Except.error e) ∧
    (∀ (T : Type) (s : String),
      (OptionImpl.none : OptionImpl T).expect (Sum.inl s)
        = Except.error (UnwrapError s)) ∧
    (∀ (T E : Type) (x : E) (e : JSError),
      (ResultImpl.err x : ResultImpl T E).expect (Sum.inr e)
        = Except.error e) ∧
    (∀ (T E : Type) (x : E) (s : String),
      (ResultImpl.err x : ResultImpl T E).expect (Sum.inl s)
        = Except.error (UnwrapError s)) ∧
    (∀ (T E : Type) (t : T) (e : JSError),
      (ResultImpl.ok t : ResultImpl T E).expectErr (Sum.inr e)
        = Except.error e) ∧
    (∀ (T E : Type) (t : T) (s : String),
      (ResultImpl.ok t : ResultImpl T E).expectErr (Sum.inl s)
        = Except.error (UnwrapError s)) ∧
    (∀ (s : String),
      (UnwrapError s).name = "UnwrapError" ∧ (UnwrapError s).message = s) :=
  ⟨fun _ _ => rfl, fun _ _ => rfl, fun _ _ _ _ => rfl, fun _ _ _ _ => rfl,
    fun _ _ _ _ => rfl, fun _ _ _ _ => rfl, fun _ => ⟨rfl, rfl⟩⟩

/-- C7: `unwrapOrElse` is lazy.  On the `none` variant the result is
exactly one application of the thunk (`Sum.inr (thunk ())`); on a `some`
variant the result is the wrapped value and does not depend on the thunk
at all (the pure-embedding rendering of "invoked zero times").  The
analogous statements hold for `Result.unwrapOrElse` with respect to the
`ok` variant. -/
theorem unwrapOrElse_lazy :
    (∀ (T D : Type) (thunk : Unit → D),
      (OptionImpl.none : OptionImpl T).unwrapOrElse thunk
        = Sum.inr (thunk ())) ∧
    (∀ (T D : Type) (v : T) (thunk : Unit → D),
      (OptionImpl.some v).unwrapOrElse thunk = Sum.inl v) ∧
    (∀ (T D : Type) (v : T) (thunk₁ thunk₂ : Unit → D),
      (OptionImpl.some v).unwrapOrElse thunk₁
        = (OptionImpl.some v).unwrapOrElse thunk₂) ∧
    (∀ (T E D : Type) (e : E) (thunk : E → D),
      (ResultImpl.err e : ResultImpl T E).unwrapOrElse thunk
        = Sum.inr (thunk e)) ∧
    (∀ (T E D : Type) (t : T) (thunk : E → D),
      (ResultImpl.ok t : ResultImpl T E).unwrapOrElse thunk = Sum.inl t) ∧
    (∀ (T E D : Type) (t : T) (thunk₁ thunk₂ : E → D),
      (ResultImpl.ok t : ResultImpl T E).unwrapOrElse thunk₁
        = (ResultImpl.ok t : ResultImpl T E).unwrapOrElse thunk₂) :=
  ⟨fun _ _ _ => rfl, fun _ _ _ _ => rfl, fun _ _ _ _ _ => rfl,
    fun _ _ _ _ _ => rfl, fun _ _ _ _ _ => rfl, fun _ _ _ _ _ _ => rfl⟩

/-- C8: `reverse` is a self-inverse on the `Result` type: for every result
(both `ok t` and `err e`), `r.reverse.reverse = r`, where `reverse` maps
`ok t` to `err t` and `err e` to `ok e` with the same payload. -/
theorem reverse_self_inverse :
    (∀ (T E : Type) (r : ResultImpl T E), r.reverse.reverse = r) ∧
    (∀ (T E : Type) (t : T),
      (ResultImpl.ok t : ResultImpl T E).reverse = ResultImpl.err t) ∧
    (∀ (T E : Type) (e : E),
      (ResultImpl.err e : ResultImpl T E).reverse = ResultImpl.ok e) := by
  refine ⟨fun T E r => ?_, fun T E t => rfl, fun T E e => rfl⟩
  rcases ResultImpl.resVariantCases r with ⟨t, h⟩ | ⟨e, h⟩ <;> subst h <;>
    simp [ResultImpl.reverse]

/-- C9: `option.fromVoidable` returns the `none` variant when and only
when its argument is a missing-marker value of the host language
(`undefined` or `null`), and otherwise returns `some` wrapping the
argument itself, unchanged. -/
theorem fromVoidable_none_iff_missing :
    (∀ (T : Type), fromVoidable (Voidable.undef : Voidable T)
        = OptionImpl.none) ∧
    (∀ (T : Type), fromVoidable (Voidable.null : Voidable T)
        = OptionImpl.none) ∧
    (∀ (T : Type) (v : T), fromVoidable (Voidable.val v)
        = OptionImpl.some v) ∧
    (∀ (T : Type) (x : Voidable T),
      fromVoidable x = OptionImpl.none
        ↔ (x = Voidable.undef ∨ x = Voidable.null)) := by
  refine ⟨fun T => rfl, fun T => rfl, fun T v => rfl, fun T x => ?_⟩
  cases x with
  | undef => simp [fromVoidable]
  | null => simp [fromVoidable]
  | val w =>
    simp only [fromVoidable]
    constructor
    · intro h
      exact absurd h (OptionImpl.some_ne_none w)
    · intro h
      rcases h with h | h <;> exact Voidable.noConfusion h

/-- C10: presence is determined solely by the variant tag, never by the
payload: for every value `v`, including the missing
markers `undefined` and `null`, `option.some(v)` satisfies
`isSome() = true` and `isNone() = false`, and `some(v).unwrap()` returns
`v` without raising — so `some(undefined)` and `some(null)` are observably
distinct from `none()`. -/
theorem some_presence_is_tag_only :
    (∀ (T : Type) (v : T),
      (OptionImpl.some v).isSome = true
        ∧ (OptionImpl.some v).isNone = false
        ∧ (OptionImpl.some v).unwrap = Except.ok v) ∧
    (OptionImpl.some TSVal.undef).isSome = true ∧
    (OptionImpl.some TSVal.null).isSome = true ∧
    (OptionImpl.some TSVal.undef).unwrap = Except.ok TSVal.undef ∧
    (OptionImpl.some TSVal.null).unwrap = Except.ok TSVal.null ∧
    OptionImpl.some TSVal.undef ≠ (OptionImpl.none : OptionImpl TSVal) ∧
    OptionImpl.some TSVal.null ≠ (OptionImpl.none : OptionImpl TSVal) :=
  ⟨fun _ _ => ⟨rfl, rfl, rfl⟩, rfl, rfl, rfl, rfl,
    OptionImpl.some_ne_none TSVal.undef, OptionImpl.some_ne_none TSVal.null⟩
